import Mathlib

/-!
Shallow embedding of the StudyAI client's UI-adjacent logic:
quiz scoring (app/quiz.tsx), the revision-question selector
(app/revision-quiz.tsx), the home-screen upload state machine
(app/index.tsx), the mock-test builder (app/mock-test.tsx), and the
dashboard progress bar (app/dashboard.tsx).

JS numbers that only ever hold small non-negative integers are modelled
as `Nat`; fractional computations (per-question accuracy, the bar ratio)
are modelled over `ℚ`, which agrees with IEEE doubles on the comparison
`correct / attempts < 0.5` for all integer counters below 2^52.
JS `Record<number, string>` dictionaries are modelled as
`Nat → Option String` (absent key = `none` = JS `undefined`), and JS
`NaN` inputs are modelled by `Option` (`none` = NaN).
-/

namespace StudyAI

/-- A quiz question as produced by the backend: `{question, options, answer,
explanation}`. Only `answer` matters to scoring. -/
structure Question where
  question : String
  options : List String
  answer : String
  explanation : String
  deriving DecidableEq, Inhabited

/-- Embeds `calculateScore` of app/quiz.tsx:
`quiz.reduce((acc, q, idx) => currentAnswers[idx] === q.answer ? acc + 1 : acc, 0)`.
The JS index argument of `reduce` is supplied by `List.enum`. -/
def calculateScore (quiz : List Question) (currentAnswers : Nat → Option String) : Nat :=
  quiz.enum.foldl (fun acc p => if currentAnswers p.1 = some p.2.answer then acc + 1 else acc) 0

/-- The canonical answer of question `i` (questions are only ever read
at indices below `quiz.length`). -/
def answerOf (quiz : List Question) (i : Nat) : String :=
  (quiz.getD i default).answer

/-- Specification-side count: the number of indices `i < quiz.length`
whose recorded selection equals the canonical answer of question `i`.
An unanswered index (`a i = none`) never satisfies the predicate. -/
def correctCount (quiz : List Question) (a : Nat → Option String) : Nat :=
  (List.range quiz.length).countP (fun i => decide (a i = some (answerOf quiz i)))

/-- Structural-recursion bridge between the indexed fold and the count. -/
def scoreAux (a : Nat → Option String) : List Question → Nat → Nat
  | [], _ => 0
  | q :: l, n => (if a n = some q.answer then 1 else 0) + scoreAux a l (n + 1)

/-- Local state of the quiz screen: the `answers` dictionary and the
displayed `score`. -/
structure QuizState where
  answers : Nat → Option String
  score : Nat

/-- Embeds `selectOption` of app/quiz.tsx:
`const newAnswers = { ...answers, [qIdx]: opt }; setAnswers(newAnswers);
const newScore = calculateScore(newAnswers); setScore(newScore);`.
The object spread overwrites key `qIdx` and keeps every other key. -/
def selectOption (quiz : List Question) (st : QuizState) (qIdx : Nat) (opt : String) :
    QuizState :=
  let newAnswers : Nat → Option String := fun j => if j = qIdx then some opt else st.answers j
  { answers := newAnswers, score := calculateScore quiz newAnswers }

/-- Per-question historical counters from `quiz_stats.per_question`.
The TS fields are optional; `?? 0` defaulting is resolved into plain `Nat`
fields (an absent field reads as 0). -/
structure QStats where
  attempts : Nat
  correct : Nat
  skipped : Nat
  deriving DecidableEq, Inhabited

/-- Embeds the `needsRevision` condition of app/revision-quiz.tsx:
`const accuracy = attempts > 0 ? correct / attempts : 0;
(attempts >= 1 && correct === 0) || (attempts >= 3 && accuracy < 0.5)`. -/
def needsRevision (s : QStats) : Bool :=
  let accuracy : ℚ := if s.attempts > 0 then (s.correct : ℚ) / (s.attempts : ℚ) else 0
  decide ((1 ≤ s.attempts ∧ s.correct = 0) ∨ (3 ≤ s.attempts ∧ accuracy < 1 / 2))

/-- Embeds the `revisionIndices` construction of app/revision-quiz.tsx:
`allQuiz.forEach((q, idx) => { const statsForQ = perQuestionStats[String(idx)];
if (!statsForQ) return; ... if (attempts === 0) return; ...
if (needsRevision && idx >= 0 && idx < allQuiz.length) revisionIndices.push(idx); })`.
`idx >= 0` is vacuous over `Nat`. -/
def revisionIndices (allQuiz : List Question) (stats : Nat → Option QStats) : List Nat :=
  allQuiz.enum.foldl
    (fun acc p =>
      match stats p.1 with
      | none => acc
      | some s =>
        if s.attempts = 0 then acc
        else if needsRevision s = true ∧ p.1 < allQuiz.length then acc ++ [p.1] else acc)
    []

/-- Whether the `forEach` body pushes index `n` (given `len` questions). -/
def flaggedAt (stats : Nat → Option QStats) (len n : Nat) : Bool :=
  match stats n with
  | none => false
  | some s => if s.attempts = 0 then false else needsRevision s && decide (n < len)

/-- Structural recursion computing the pushed indices from offset `n`. -/
def revAux (stats : Nat → Option QStats) (len : Nat) : List Question → Nat → List Nat
  | [], _ => []
  | _ :: l, n => (if flaggedAt stats len n = true then [n] else []) ++ revAux stats len l (n + 1)

/-- Embeds `const revisionQuiz = revisionIndices.map((i) => allQuiz[i])`. -/
def revisionQuiz (allQuiz : List Question) (stats : Nat → Option QStats) : List Question :=
  (revisionIndices allQuiz stats).map (fun i => allQuiz.getD i default)

/-- The transient reference to a picked file (uri/name/size/mime). -/
structure FileHandle where
  uri : String
  name : String
  size : Nat
  mimeType : String
  deriving DecidableEq, Inhabited

/-- The AI-generated bundle returned by `/api/study_material`. `quiz_stats`
is kept as an association list keyed by question index. -/
structure StudyMaterial where
  summary : String
  key_topics : List String
  key_points : List String
  flashcards : List (String × String)
  quiz : List Question
  text : String
  material_id : Option String
  quiz_stats : List (Nat × QStats)
  deriving DecidableEq, Inhabited

/-- The process-wide context held by StudyContext.tsx, restricted to the
fields touched by the home screen. `alert` records the last user-facing
alert message (`Alert.alert`). -/
structure ContextState where
  user : Option String
  fileInfo : Option FileHandle
  apiData : Option StudyMaterial
  videoResults : List String
  videoError : Option String
  uploading : Bool
  alert : Option String
  deriving DecidableEq, Inhabited

/-- Embeds `onRemoveFile` of app/index.tsx:
`setFileInfo(null); setApiData(null); setVideoResults([]); setVideoError(null);`. -/
def onRemoveFile (s : ContextState) : ContextState :=
  { s with fileInfo := none, apiData := none, videoResults := [], videoError := none }

/-- Embeds the success path of `pickFile` of app/index.tsx:
`setFileInfo(selected); setApiData(null); setVideoResults([]); setVideoError(null);`. -/
def pickFileSuccess (f : FileHandle) (s : ContextState) : ContextState :=
  { s with fileInfo := some f, apiData := none, videoResults := [], videoError := none }

/-- How the `upload` request of app/index.tsx resolves: parsed 2xx JSON,
a JSON parse failure, a non-2xx status, or a thrown exception. -/
inductive UploadOutcome where
  | success (material : StudyMaterial)
  | parseFailure
  | httpError (status : Nat)
  | exception (message : String)
  deriving DecidableEq

/-- The three non-success resolutions of `upload`. -/
def UploadOutcome.isFailure : UploadOutcome → Bool
  | .success _ => false
  | _ => true

/-- Embeds `setUploading(true)` executed by `upload` before the request
is issued. -/
def uploadStart (s : ContextState) : ContextState :=
  { s with uploading := true }

/-- Embeds the rest of `upload` of app/index.tsx after the request
resolves. Success: `setApiData(json); setVideoResults([]); setVideoError(null)`.
Parse failure: `Alert.alert("Error", "Server returned non-JSON response")`.
Non-2xx: `Alert.alert("Upload failed", ...)`. Exception:
`Alert.alert("Upload error", ...)`. Every branch runs the
`finally { setUploading(false) }` cleanup. -/
def uploadFinish (o : UploadOutcome) (s : ContextState) : ContextState :=
  match o with
  | .success m =>
      { s with apiData := some m, videoResults := [], videoError := none, uploading := false }
  | .parseFailure =>
      { s with alert := some "Server returned non-JSON response", uploading := false }
  | .httpError status =>
      { s with alert := some ("Upload failed: Status " ++ toString status), uploading := false }
  | .exception msg =>
      { s with alert := some ("Upload error: " ++ msg), uploading := false }

/-- Home-screen configuration: the context plus whether an upload request
is currently outstanding (in flight). -/
structure HomeState where
  ctx : ContextState
  outstanding : Bool
  deriving DecidableEq

/-- Enabledness of the generate button of app/index.tsx:
`disabled={!fileInfo || uploading}`, so it can be pressed exactly when a
file is picked and no upload is marked in progress. -/
def canPressUpload (s : ContextState) : Bool :=
  s.fileInfo.isSome && !s.uploading

/-- Event-level step relation of the home screen. `press` fires only when
the generate button is enabled and issues the request; `finish` resolves
the outstanding request with some outcome; `removeFile` and `pickFile`
are the other state-changing user actions. -/
inductive HomeStep : HomeState → HomeState → Prop where
  | press (s : HomeState) (h : canPressUpload s.ctx = true) :
      HomeStep s ⟨uploadStart s.ctx, true⟩
  | finish (s : HomeState) (o : UploadOutcome) (h : s.outstanding = true) :
      HomeStep s ⟨uploadFinish o s.ctx, false⟩
  | removeFile (s : HomeState) :
      HomeStep s ⟨onRemoveFile s.ctx, s.outstanding⟩
  | pickFile (s : HomeState) (f : FileHandle) :
      HomeStep s ⟨pickFileSuccess f s.ctx, s.outstanding⟩

/-- The context at app start: nothing picked, nothing generated. -/
def initialContext : ContextState :=
  { user := none, fileInfo := none, apiData := none, videoResults := [],
    videoError := none, uploading := false, alert := none }

/-- The home screen at app start. -/
def initialHome : HomeState := ⟨initialContext, false⟩

/-- States reachable from app start by home-screen events. -/
def Reachable (s : HomeState) : Prop :=
  Relation.ReflTransGen HomeStep initialHome s

/-- One row of the mock-test pattern editor: fixed marks per question and
the editable count, kept as a string for the TextInput. -/
structure PatternRow where
  marks : Nat
  count : String
  deriving DecidableEq, Inhabited

/-- One generated mock-test question. -/
structure MockQuestion where
  question : String
  marks : Nat
  deriving DecidableEq, Inhabited

/-- One generated mock-test section. -/
structure MockSection where
  marks : Nat
  instructions : Option String
  questions : List MockQuestion
  deriving DecidableEq, Inhabited

/-- The `/api/mock_test` response shape. -/
structure MockTestResponse where
  total_marks : Nat
  pattern_used : List (Nat × Nat)
  sections : List MockSection
  deriving DecidableEq, Inhabited

/-- Embeds `DEFAULT_PATTERN` of app/mock-test.tsx. -/
def DEFAULT_PATTERN : List PatternRow :=
  [⟨10, "3"⟩, ⟨5, "4"⟩, ⟨3, "10"⟩, ⟨2, "5"⟩, ⟨1, "10"⟩]

/-- Local state of the mock-test screen. -/
structure MockTestState where
  patternRows : List PatternRow
  loading : Bool
  error : Option String
  mockTest : Option MockTestResponse
  deriving DecidableEq

/-- Embeds the sanitization in `handleChangeCount`:
`value.replace(/[^0-9]/g, "")`. -/
def sanitizeCount (value : String) : String :=
  String.mk (value.toList.filter Char.isDigit)

/-- Embeds `handleChangeCount` of app/mock-test.tsx:
`rows.map((row, i) => (i === index ? { ...row, count: sanitized } : row))`. -/
def handleChangeCount (rows : List PatternRow) (index : Nat) (value : String) :
    List PatternRow :=
  rows.enum.map (fun p => if p.1 = index then { p.2 with count := sanitizeCount value } else p.2)

/-- Decimal value of a digit list, most significant first (the fold JS
`parseInt` performs on a digit string). -/
def digitsToNat (l : List Char) : Nat :=
  l.foldl (fun n c => n * 10 + (c.toNat - 48)) 0

/-- JS `parseInt(s, 10)` restricted to the inputs reachable here
(digit-only strings and the literal "0"): the longest leading digit run
is parsed; no leading digit yields NaN, modelled as `none`. -/
def jsParseInt (s : String) : Option Nat :=
  let ds := s.toList.takeWhile Char.isDigit
  if ds.isEmpty then none else some (digitsToNat ds)

/-- Embeds the per-row count conversion `parseInt(row.count || "0", 10) || 0`:
an empty string falls back to "0", and a NaN parse falls back to 0. -/
def countValue (count : String) : Nat :=
  (jsParseInt (if count = "" then "0" else count)).getD 0

/-- Embeds `totalMarks` of app/mock-test.tsx:
`patternRows.reduce((sum, row) => sum + row.marks * count, 0)`. -/
def totalMarks (rows : List PatternRow) : Nat :=
  rows.foldl (fun sum row => sum + row.marks * countValue row.count) 0

/-- Specification-side reading of a count field: the decimal numeral it
spells, with an empty or non-numeric string contributing 0.
`Nat.ofDigits 10` takes the digits little-endian. -/
def parsedCount (s : String) : Nat :=
  if s.toList ≠ [] ∧ s.toList.all Char.isDigit then
    Nat.ofDigits 10 ((s.toList.map (fun c => c.toNat - 48)).reverse)
  else 0

/-- All count fields of the rows are digit-only strings. -/
def countsDigitOnly (rows : List PatternRow) : Prop :=
  ∀ r ∈ rows, r.count.toList.all Char.isDigit = true

/-- How the `/api/mock_test` request of `handleGenerate` resolves:
parsed 2xx JSON without an error field, a non-2xx status (whose JSON may
carry an error field), a 2xx JSON carrying an error field, or a thrown
exception. -/
inductive GenOutcome where
  | success (r : MockTestResponse)
  | httpError (status : Nat) (errField : Option String)
  | errorField (message : String)
  | exception (message : String)
  deriving DecidableEq

/-- The three non-success resolutions of `handleGenerate`. -/
def GenOutcome.isFailure : GenOutcome → Bool
  | .success _ => false
  | _ => true

/-- Embeds `handleGenerate` of app/mock-test.tsx from `setLoading(true);
setError(null)` through the branch on the response:
non-2xx: `setError(json.error || ...); setMockTest(null)`;
2xx with error field: `setError(json.error); setMockTest(null)`;
exception: `setError(...); setMockTest(null)`;
success: `setMockTest(json)`; all paths end in
`finally { setLoading(false) }`. -/
def handleGenerate (o : GenOutcome) (st : MockTestState) : MockTestState :=
  let started := { st with loading := true, error := (none : Option String) }
  match o with
  | .success r =>
      { started with mockTest := some r, loading := false }
  | .httpError status errField =>
      { started with
        error := some (errField.getD ("Mock test API error: " ++ toString status)),
        mockTest := none, loading := false }
  | .errorField msg =>
      { started with error := some msg, mockTest := none, loading := false }
  | .exception msg =>
      { started with error := some msg, mockTest := none, loading := false }

/-- Embeds the width computation of the `Bar` component of
app/dashboard.tsx:
`const safeRatio = Math.max(0, Math.min(1, isNaN(ratio) ? 0 : ratio));
const width = safeRatio * 100;`. A `none` input models a NaN ratio. -/
def Bar (ratio : Option ℚ) : ℚ :=
  let safeRatio : ℚ := max 0 (min 1 (match ratio with | none => 0 | some r => r))
  safeRatio * 100

/- Concrete data used by the witness theorems. -/

/-- Demo question with canonical answer "A". -/
def qA : Question := ⟨"Q1", ["A", "B"], "A", "E1"⟩

/-- Demo question with canonical answer "B". -/
def qB : Question := ⟨"Q2", ["A", "B"], "B", "E2"⟩

/-- Demo quiz of two questions. -/
def quizDemo : List Question := [qA, qB]

/-- Demo answer dictionary: question 0 answered "A", question 1 unanswered. -/
def answersDemo : Nat → Option String :=
  fun j => if j = 0 then some "A" else none

/-- Demo quiz-screen state. -/
def quizStateDemo : QuizState := ⟨answersDemo, 1⟩

/-- Demo per-question stats: question 0 attempted 3 times, 1 correct. -/
def statsDemo : Nat → Option QStats :=
  fun j => if j = 0 then some ⟨3, 1, 0⟩ else none

/-- Demo picked file. -/
def fileDemo : FileHandle := ⟨"file://demo.pdf", "demo.pdf", 1024, "application/pdf"⟩

/-- Home screen after picking `fileDemo` at app start. -/
def homeState1 : HomeState := ⟨pickFileSuccess fileDemo initialContext, false⟩

/-- Home screen after additionally pressing the generate button. -/
def homeState2 : HomeState := ⟨uploadStart homeState1.ctx, true⟩

/-- Demo mock-test response previously rendered on the screen. -/
def mockDemoResponse : MockTestResponse :=
  ⟨30, [(10, 3)], [⟨10, none, [⟨"State the demo question.", 10⟩]⟩]⟩

/-- Mock-test screen currently displaying `mockDemoResponse`. -/
def mockDemoState : MockTestState :=
  ⟨DEFAULT_PATTERN, false, none, some mockDemoResponse⟩

/- ------------------------------------------------------------------ -/
/- Lemmas -/
/- ------------------------------------------------------------------ -/

lemma foldl_enumFrom_scoreAux (a : Nat → Option String) :
    ∀ (l : List Question) (n acc : Nat),
      (List.enumFrom n l).foldl
        (fun acc p => if a p.1 = some p.2.answer then acc + 1 else acc) acc
      = acc + scoreAux a l n := by
  intro l
  induction l with
  | nil => intro n acc; simp [scoreAux]
  | cons q l ih =>
      intro n acc
      simp only [List.enumFrom, List.foldl_cons, scoreAux, ih]
      by_cases h : a n = some q.answer
      · simp [h]; omega
      · simp [h]

lemma calculateScore_eq_scoreAux (quiz : List Question) (a : Nat → Option String) :
    calculateScore quiz a = scoreAux a quiz 0 := by
  have h := foldl_enumFrom_scoreAux a quiz 0 0
  simpa [calculateScore, List.enum] using h

lemma correctCount_cons (q : Question) (l : List Question) (a : Nat → Option String) :
    correctCount (q :: l) a
      = (if a 0 = some q.answer then 1 else 0)
        + correctCount l (fun i => a (i + 1)) := by
  simp only [correctCount, List.length_cons, List.range_succ_eq_map,
    List.countP_cons, List.countP_map]
  have h0 : answerOf (q :: l) 0 = q.answer := rfl
  have hs : ∀ i, answerOf (q :: l) (i + 1) = answerOf l i := by
    intro i; rfl
  by_cases h : a 0 = some q.answer
  · simp [h, h0, Function.comp_def, hs, Nat.add_comm]
  · simp [h, h0, Function.comp_def, hs, Nat.add_comm]

lemma scoreAux_eq_correctCount (a : Nat → Option String) :
    ∀ (l : List Question) (n : Nat),
      scoreAux a l n = correctCount l (fun i => a (i + n)) := by
  intro l
  induction l with
  | nil => intro n; simp [scoreAux, correctCount]
  | cons q l ih =>
      intro n
      rw [scoreAux, correctCount_cons, ih (n + 1)]
      have h2 : (fun i => a (i + 1 + n)) = fun i => a (i + (n + 1)) := by
        funext i; congr 1; omega
      simp only [Nat.zero_add, h2]

/-- Shared bridge: the fold in `calculateScore` computes exactly the
count of correctly answered indices. -/
lemma calculateScore_eq (quiz : List Question) (a : Nat → Option String) :
    calculateScore quiz a = correctCount quiz a := by
  rw [calculateScore_eq_scoreAux, scoreAux_eq_correctCount]
  simp [Nat.add_zero]

/-- The count `countP` is monotone in the predicate, pointwise over the members. -/
lemma countP_mono_of_mem {α : Type} (p q : α → Bool) :
    ∀ (l : List α), (∀ i ∈ l, p i = true → q i = true) →
      l.countP p ≤ l.countP q := by
  intro l
  induction l with
  | nil => intro _; simp
  | cons x l ih =>
      intro h
      simp only [List.countP_cons]
      have hih := ih (fun i hi => h i (List.mem_cons_of_mem x hi))
      by_cases hx : p x = true
      · have := h x (List.mem_cons_self x l) hx
        simp [hx, this]; omega
      · have hx0 : (if p x = true then 1 else 0) = 0 := by simp [hx]
        rw [hx0]
        have : (if q x = true then 1 else 0) ≥ 0 := by omega
        omega

/-- The count of correct indices only grows when correct selections are
preserved index-wise. -/
lemma correctCount_mono (quiz : List Question) (a b : Nat → Option String)
    (h : ∀ i, i < quiz.length → a i = some (answerOf quiz i) →
      b i = some (answerOf quiz i)) :
    correctCount quiz a ≤ correctCount quiz b := by
  unfold correctCount
  refine countP_mono_of_mem _ _ _ ?_
  intro i hi
  simp only [decide_eq_true_eq]
  exact h i (List.mem_range.mp hi)

/-- The `forEach` body appends exactly the singleton `[n]` when the flag
holds at `n`, and nothing otherwise. -/
lemma revision_step_eq (stats : Nat → Option QStats) (len : Nat) (acc : List Nat) (n : Nat) :
    (match stats n with
      | none => acc
      | some s =>
        if s.attempts = 0 then acc
        else if needsRevision s = true ∧ n < len then acc ++ [n] else acc)
    = acc ++ (if flaggedAt stats len n = true then [n] else []) := by
  cases hs : stats n with
  | none => simp [flaggedAt, hs]
  | some s =>
      by_cases h0 : s.attempts = 0
      · simp [flaggedAt, hs, h0]
      · by_cases hc : needsRevision s = true ∧ n < len
        · have : flaggedAt stats len n = true := by
            simp [flaggedAt, hs, h0, hc.1, hc.2]
          simp [h0, hc, this]
        · have : flaggedAt stats len n = false := by
            cases hn : needsRevision s with
            | false => simp [flaggedAt, hs, h0, hn]
            | true =>
                have hlt : ¬n < len := fun hlt => hc ⟨hn, hlt⟩
                simp [flaggedAt, hs, h0, hn, hlt]
          simp [h0, hc, this]

lemma foldl_enumFrom_revAux (stats : Nat → Option QStats) (len : Nat) :
    ∀ (l : List Question) (n : Nat) (acc : List Nat),
      (List.enumFrom n l).foldl
        (fun acc p =>
          match stats p.1 with
          | none => acc
          | some s =>
            if s.attempts = 0 then acc
            else if needsRevision s = true ∧ p.1 < len then acc ++ [p.1] else acc)
        acc
      = acc ++ revAux stats len l n := by
  intro l
  induction l with
  | nil => intro n acc; simp [revAux]
  | cons q l ih =>
      intro n acc
      simp only [List.enumFrom, List.foldl_cons, revAux]
      rw [revision_step_eq stats len acc n, ih (n + 1), List.append_assoc]

lemma revisionIndices_eq_revAux (allQuiz : List Question) (stats : Nat → Option QStats) :
    revisionIndices allQuiz stats = revAux stats allQuiz.length allQuiz 0 := by
  have h := foldl_enumFrom_revAux stats allQuiz.length allQuiz 0 []
  simpa [revisionIndices, List.enum] using h

lemma mem_revAux (stats : Nat → Option QStats) (len : Nat) (i : Nat) :
    ∀ (l : List Question) (n : Nat),
      i ∈ revAux stats len l n
        ↔ (n ≤ i ∧ i < n + l.length ∧ flaggedAt stats len i = true) := by
  intro l
  induction l with
  | nil =>
      intro n
      simp only [revAux, List.not_mem_nil, false_iff, List.length_nil]
      rintro ⟨h1, h2, _⟩
      omega
  | cons q l ih =>
      intro n
      simp only [revAux, List.mem_append, ih (n + 1), List.length_cons]
      constructor
      · rintro (hmem | ⟨h1, h2, h3⟩)
        · have hi : i = n := by
            by_cases hf : flaggedAt stats len n = true
            · simpa [hf] using hmem
            · simp [hf] at hmem
          subst hi
          have hf : flaggedAt stats len i = true := by
            by_cases hf : flaggedAt stats len i = true
            · exact hf
            · simp [hf] at hmem
          exact ⟨Nat.le_refl i, by omega, hf⟩
        · exact ⟨by omega, by omega, h3⟩
      · rintro ⟨h1, h2, h3⟩
        by_cases hi : i = n
        · subst hi
          left; simp [h3]
        · right
          exact ⟨by omega, by omega, h3⟩

lemma flaggedAt_lt_len (stats : Nat → Option QStats) (len i : Nat)
    (h : flaggedAt stats len i = true) : i < len := by
  unfold flaggedAt at h
  cases hs : stats i with
  | none => rw [hs] at h; simp at h
  | some s =>
      rw [hs] at h
      by_cases h0 : s.attempts = 0
      · simp [h0] at h
      · simp only [h0, if_false, Bool.and_eq_true, decide_eq_true_eq] at h
        exact h.2

lemma pairwise_revAux (stats : Nat → Option QStats) (len : Nat) :
    ∀ (l : List Question) (n : Nat), List.Pairwise (· < ·) (revAux stats len l n) := by
  intro l
  induction l with
  | nil => intro n; simp [revAux]
  | cons q l ih =>
      intro n
      simp only [revAux]
      rw [List.pairwise_append]
      refine ⟨?_, ih (n + 1), ?_⟩
      · by_cases hf : flaggedAt stats len n = true <;> simp [hf]
      · intro a ha b hb
        have ha' : a = n := by
          by_cases hf : flaggedAt stats len n = true
          · simpa [hf] using ha
          · simp [hf] at ha
        have hb' : n + 1 ≤ b := ((mem_revAux stats len b l (n + 1)).mp hb).1
        omega

/-- Indices produced by the selector are strictly increasing. -/
lemma pairwise_revisionIndices (allQuiz : List Question) (stats : Nat → Option QStats) :
    List.Pairwise (· < ·) (revisionIndices allQuiz stats) := by
  rw [revisionIndices_eq_revAux]
  exact pairwise_revAux stats allQuiz.length allQuiz 0

lemma mem_revisionIndices_lt (allQuiz : List Question) (stats : Nat → Option QStats)
    (i : Nat) (h : i ∈ revisionIndices allQuiz stats) : i < allQuiz.length := by
  rw [revisionIndices_eq_revAux] at h
  have h3 := ((mem_revAux stats allQuiz.length i allQuiz 0).mp h).2.2
  exact flaggedAt_lt_len _ _ _ h3

lemma getD_drop {α : Type} (l : List α) (d : α) (m t : Nat) :
    (l.drop m).getD t d = l.getD (m + t) d := by
  rw [List.getD_eq_getElem?_getD, List.getD_eq_getElem?_getD, List.getElem?_drop]

lemma drop_eq_getD_cons {α : Type} (l : List α) (d : α) (k : Nat) (h : k < l.length) :
    l.drop k = l.getD k d :: l.drop (k + 1) := by
  rw [List.drop_eq_getElem_cons h, List.getD_eq_getElem?_getD, List.getElem?_eq_getElem h]
  rfl

/-- A strictly increasing, in-range index list selects a sublist:
mapping `getD` over it yields a sublist of the original list. Proved
with an offset `n` so the induction goes through on the index list. -/
lemma sublist_map_getD {α : Type} (d : α) :
    ∀ (is : List Nat) (l : List α) (n : Nat),
      List.Pairwise (· < ·) is →
      (∀ i ∈ is, n ≤ i ∧ i < l.length + n) →
      List.Sublist (is.map (fun i => l.getD (i - n) d)) l := by
  intro is
  induction is with
  | nil => intro l n _ _; simp
  | cons i rest ih =>
      intro l n hpw hb
      have hpw_rest : List.Pairwise (· < ·) rest := hpw.of_cons
      have hlt : ∀ j ∈ rest, i < j := by
        intro j hj
        exact (List.pairwise_cons.mp hpw).1 j hj
      obtain ⟨hni, hil⟩ := hb i (List.mem_cons_self i rest)
      have hk : i - n < l.length := by omega
      have hmap : rest.map (fun j => l.getD (j - n) d)
          = rest.map (fun j => (l.drop (i - n + 1)).getD (j - (n + (i - n) + 1)) d) := by
        refine List.map_congr_left ?_
        intro j hj
        rw [getD_drop]
        congr 1
        have hij := hlt j hj
        obtain ⟨hnj, _⟩ := hb j (List.mem_cons_of_mem i hj)
        omega
      have hrest : List.Sublist (rest.map (fun j => l.getD (j - n) d)) (l.drop (i - n + 1)) := by
        rw [hmap]
        refine ih (l.drop (i - n + 1)) (n + (i - n) + 1) hpw_rest ?_
        intro j hj
        obtain ⟨hnj, hjl⟩ := hb j (List.mem_cons_of_mem i hj)
        have hij := hlt j hj
        constructor
        · omega
        · rw [List.length_drop]
          omega
      have hcons : List.Sublist ((i :: rest).map (fun j => l.getD (j - n) d)) (l.drop (i - n)) := by
        rw [List.map_cons, drop_eq_getD_cons l d (i - n) hk]
        exact List.Sublist.cons₂ _ hrest
      exact hcons.trans (List.drop_sublist (i - n) l)

/-- The revision quiz is a sublist of the full quiz. -/
lemma revisionQuiz_sublist (allQuiz : List Question) (stats : Nat → Option QStats) :
    List.Sublist (revisionQuiz allQuiz stats) allQuiz := by
  unfold revisionQuiz
  have h := sublist_map_getD (default : Question) (revisionIndices allQuiz stats) allQuiz 0
    (pairwise_revisionIndices allQuiz stats)
    (fun i hi => ⟨Nat.zero_le i, by
      have := mem_revisionIndices_lt allQuiz stats i hi
      omega⟩)
  simpa using h

lemma sanitizeCount_digitOnly (value : String) :
    (sanitizeCount value).toList.all Char.isDigit = true := by
  have h : (sanitizeCount value).toList = value.toList.filter Char.isDigit := rfl
  rw [h, List.all_eq_true]
  intro c hc
  exact (List.mem_filter.mp hc).2

lemma handleChangeCount_digitOnly (rows : List PatternRow) (index : Nat) (value : String)
    (h : countsDigitOnly rows) :
    countsDigitOnly (handleChangeCount rows index value) := by
  intro r hr
  unfold handleChangeCount at hr
  obtain ⟨p, hp, hfp⟩ := List.mem_map.mp hr
  by_cases hidx : p.1 = index
  · rw [if_pos hidx] at hfp
    rw [← hfp]
    exact sanitizeCount_digitOnly value
  · rw [if_neg hidx] at hfp
    rw [← hfp]
    have hmem : p.2 ∈ rows := by
      have : p ∈ List.enumFrom 0 rows := by simpa [List.enum] using hp
      exact List.snd_mem_of_mem_enumFrom this
    exact h p.2 hmem

lemma digitsToNat_eq_ofDigits :
    ∀ l : List Char,
      digitsToNat l = Nat.ofDigits 10 ((l.map (fun c => c.toNat - 48)).reverse) := by
  intro l
  induction l using List.reverseRecOn with
  | nil => simp [digitsToNat, Nat.ofDigits_nil]
  | append_singleton l c ih =>
      have hfold : digitsToNat (l ++ [c]) = digitsToNat l * 10 + (c.toNat - 48) := by
        simp [digitsToNat, List.foldl_append]
      rw [hfold, ih]
      simp [List.map_append, List.reverse_append, Nat.ofDigits_cons]
      ring

lemma countValue_eq_parsedCount (s : String) (h : s.toList.all Char.isDigit = true) :
    countValue s = parsedCount s := by
  by_cases hs : s = ""
  · subst hs; decide
  · have hne : s.toList ≠ [] := by
      intro hnil
      exact hs (String.ext hnil)
    have hall : ∀ c ∈ s.toList, Char.isDigit c = true := List.all_eq_true.mp h
    have htake : s.toList.takeWhile Char.isDigit = s.toList :=
      List.takeWhile_eq_self_iff.mpr hall
    have hjs : jsParseInt s = some (digitsToNat s.toList) := by
      unfold jsParseInt
      rw [htake]
      simp only [List.isEmpty_iff, if_neg hne]
    unfold countValue parsedCount
    rw [if_neg hs, hjs, if_pos ⟨hne, h⟩]
    simp [digitsToNat_eq_ofDigits]

lemma foldl_add_map_sum {α : Type} (g : α → Nat) :
    ∀ (l : List α) (a : Nat), l.foldl (fun s r => s + g r) a = a + (l.map g).sum := by
  intro l
  induction l with
  | nil => intro a; simp
  | cons x l ih =>
      intro a
      simp only [List.foldl_cons, List.map_cons, List.sum_cons, ih]
      omega

/-- On digit-only rows the displayed total is the specification sum. -/
lemma totalMarks_eq_sum (rows : List PatternRow) (h : countsDigitOnly rows) :
    totalMarks rows = (rows.map (fun r => r.marks * parsedCount r.count)).sum := by
  unfold totalMarks
  rw [foldl_add_map_sum (fun r => r.marks * countValue r.count) rows 0]
  simp only [Nat.zero_add]
  congr 1
  refine List.map_congr_left ?_
  intro r hr
  rw [countValue_eq_parsedCount r.count (h r hr)]

/-- In every reachable home-screen state, an outstanding request implies
the uploading flag is set: the flag is raised by the only step that
issues a request and lowered only by the step that resolves it. -/
lemma reachable_outstanding_uploading :
    ∀ s : HomeState, Reachable s → s.outstanding = true → s.ctx.uploading = true := by
  intro s hreach
  unfold Reachable at hreach
  induction hreach with
  | refl =>
      intro h0
      exact absurd h0 (by simp [initialHome, initialContext])
  | tail hsteps hstep ih =>
      cases hstep with
      | press h => intro _; rfl
      | finish o h => intro h0; exact absurd h0 (by simp)
      | removeFile =>
          intro h0
          have := ih h0
          simpa [onRemoveFile] using this
      | pickFile f =>
          intro h0
          have := ih h0
          simpa [pickFileSuccess] using this

/- ------------------------------------------------------------------ -/
/- Claim theorems -/
/- ------------------------------------------------------------------ -/

/-- C1: for every quiz and answer mapping, the computed score equals the
number of indices whose selection equals the canonical answer of that
question; an unanswered index (`a i = none`) can never equal
`some (answerOf quiz i)`, so it contributes nothing. -/
theorem calculateScore_counts_correct (quiz : List Question) (a : Nat → Option String) :
    calculateScore quiz a = correctCount quiz a :=
  calculateScore_eq quiz a

/-- C2: a question index with per-question stats is flagged for revision
iff (attempts ≥ 1 and correct = 0) or (attempts ≥ 3 and
correct/attempts < 1/2); indices with attempts = 0 make both disjuncts
false and are never flagged. -/
theorem revision_flag_iff (allQuiz : List Question) (stats : Nat → Option QStats)
    (i : Nat) (s : QStats) (hi : i < allQuiz.length) (hs : stats i = some s) :
    i ∈ revisionIndices allQuiz stats
      ↔ ((1 ≤ s.attempts ∧ s.correct = 0)
         ∨ (3 ≤ s.attempts ∧ (s.correct : ℚ) / (s.attempts : ℚ) < 1 / 2)) := by
  have hflag : flaggedAt stats allQuiz.length i = true
      ↔ ((1 ≤ s.attempts ∧ s.correct = 0)
         ∨ (3 ≤ s.attempts ∧ (s.correct : ℚ) / (s.attempts : ℚ) < 1 / 2)) := by
    unfold flaggedAt
    rw [hs]
    by_cases h0 : s.attempts = 0
    · simp [h0]
    · have hpos : 0 < s.attempts := Nat.pos_of_ne_zero h0
      simp only [h0, if_false, Bool.and_eq_true, decide_eq_true_eq, needsRevision,
        if_pos hpos, hi, and_true]
  rw [revisionIndices_eq_revAux, mem_revAux]
  constructor
  · rintro ⟨_, _, hf⟩
    exact hflag.mp hf
  · intro hform
    exact ⟨Nat.zero_le i, by omega, hflag.mpr hform⟩

/-- Witness for C2: the spec's own example — attempts 3, correct 1 gives
accuracy 1/3 < 1/2, so question 0 is flagged. -/
theorem revision_flag_iff_witness : 0 ∈ revisionIndices quizDemo statsDemo := by
  refine (revision_flag_iff quizDemo statsDemo 0 ⟨3, 1, 0⟩ (by decide) rfl).mpr ?_
  right
  refine ⟨by decide, ?_⟩
  norm_num

/-- C3: the score never decreases when an unanswered question is filled
in with its canonical answer. -/
theorem score_monotone_add_correct (quiz : List Question) (a : Nat → Option String)
    (i : Nat) (h : a i = none) :
    calculateScore quiz a ≤
      calculateScore quiz (fun j => if j = i then some (answerOf quiz i) else a j) := by
  rw [calculateScore_eq, calculateScore_eq]
  refine correctCount_mono quiz _ _ ?_
  intro j hj hcorrect
  by_cases hji : j = i
  · subst hji; simp
  · simp [hji, hcorrect]

/-- Witness for C3: answering question 1 of the demo quiz correctly,
starting from a map that leaves it unanswered. -/
theorem score_monotone_add_correct_witness :
    answersDemo 1 = none ∧
      calculateScore quizDemo answersDemo ≤
        calculateScore quizDemo
          (fun j => if j = 1 then some (answerOf quizDemo 1) else answersDemo j) :=
  ⟨rfl, score_monotone_add_correct quizDemo answersDemo 1 rfl⟩

/-- C4: removing the selected file clears the held material, video
results and video error (and the file handle), and a successful upload
replaces the held material wholesale while clearing video state. -/
theorem single_material_invariant (s : ContextState) (m : StudyMaterial) :
    (onRemoveFile s).apiData = none
    ∧ (onRemoveFile s).videoResults = []
    ∧ (onRemoveFile s).videoError = none
    ∧ (onRemoveFile s).fileInfo = none
    ∧ (uploadFinish (UploadOutcome.success m) (uploadStart s)).apiData = some m
    ∧ (uploadFinish (UploadOutcome.success m) (uploadStart s)).videoResults = []
    ∧ (uploadFinish (UploadOutcome.success m) (uploadStart s)).videoError = none := by
  refine ⟨rfl, rfl, rfl, rfl, rfl, rfl, rfl⟩

/-- C5: selecting an option overwrites the stored selection at that
index, leaves every other index unchanged, and the stored score is the
correct-count of the new mapping. -/
theorem selectOption_overwrites (quiz : List Question) (st : QuizState)
    (qIdx : Nat) (opt : String) :
    (selectOption quiz st qIdx opt).answers qIdx = some opt
    ∧ (∀ j, j ≠ qIdx → (selectOption quiz st qIdx opt).answers j = st.answers j)
    ∧ (selectOption quiz st qIdx opt).score
        = correctCount quiz ((selectOption quiz st qIdx opt).answers) := by
  refine ⟨?_, ?_, ?_⟩
  · simp [selectOption]
  · intro j hj
    simp [selectOption, hj]
  · simp only [selectOption]
    exact calculateScore_eq _ _

/-- Witness for C5: re-answering the already answered question 0 with
"B" overwrites it, keeps question 1 untouched, and stores the recomputed
score. -/
theorem selectOption_overwrites_witness :
    (selectOption quizDemo quizStateDemo 0 "B").answers 0 = some "B"
    ∧ (selectOption quizDemo quizStateDemo 0 "B").answers 1 = quizStateDemo.answers 1
    ∧ (selectOption quizDemo quizStateDemo 0 "B").score
        = correctCount quizDemo ((selectOption quizDemo quizStateDemo 0 "B").answers) := by
  obtain ⟨h1, h2, h3⟩ := selectOption_overwrites quizDemo quizStateDemo 0 "B"
  exact ⟨h1, h2 1 (by decide), h3⟩

/-- C6 counterexample: a failed mock-test request does not leave the
previously rendered results unchanged — `handleGenerate` clears the
previously displayed mock test (`setMockTest(null)`) on failure. -/
theorem generate_failure_keeps_results_counterexample :
    ¬((handleGenerate (GenOutcome.httpError 500 none) mockDemoState).mockTest
        = mockDemoState.mockTest) := by
  simp [handleGenerate, mockDemoState]

/-- C6 amended: every failure surfaces an alert or inline error string
and leaves the held StudyMaterial unchanged; the home screen's upload
leaves all its prior state untouched, but the mock-test screen clears
its previously rendered mock test on failure. -/
theorem failure_handling_amended :
    (∀ (s : ContextState) (o : UploadOutcome), o.isFailure = true →
      (uploadFinish o (uploadStart s)).apiData = s.apiData
      ∧ (uploadFinish o (uploadStart s)).videoResults = s.videoResults
      ∧ (uploadFinish o (uploadStart s)).videoError = s.videoError
      ∧ (uploadFinish o (uploadStart s)).fileInfo = s.fileInfo
      ∧ ((uploadFinish o (uploadStart s)).alert).isSome = true)
    ∧ (∀ (st : MockTestState) (g : GenOutcome), g.isFailure = true →
      ((handleGenerate g st).error).isSome = true
      ∧ (handleGenerate g st).mockTest = none
      ∧ (handleGenerate g st).patternRows = st.patternRows) := by
  constructor
  · intro s o ho
    cases o with
    | success m => simp [UploadOutcome.isFailure] at ho
    | parseFailure => exact ⟨rfl, rfl, rfl, rfl, rfl⟩
    | httpError status => exact ⟨rfl, rfl, rfl, rfl, rfl⟩
    | exception msg => exact ⟨rfl, rfl, rfl, rfl, rfl⟩
  · intro st g hg
    cases g with
    | success r => simp [GenOutcome.isFailure] at hg
    | httpError status errField => exact ⟨rfl, rfl, rfl⟩
    | errorField msg => exact ⟨rfl, rfl, rfl⟩
    | exception msg => exact ⟨rfl, rfl, rfl⟩

/-- Witness for the amended C6: a parse failure on upload keeps the held
material, and a network exception on mock-test generation surfaces an
inline error. -/
theorem failure_handling_amended_witness :
    (uploadFinish UploadOutcome.parseFailure (uploadStart initialContext)).apiData
        = initialContext.apiData
    ∧ ((handleGenerate (GenOutcome.exception "network") mockDemoState).error).isSome = true :=
  ⟨(failure_handling_amended.1 initialContext UploadOutcome.parseFailure rfl).1,
    (failure_handling_amended.2 mockDemoState (GenOutcome.exception "network") rfl).1⟩

/-- C7: pressing the enabled generate button raises the uploading flag
as the request is issued; every resolution path lowers it again; and in
every reachable state with an outstanding request the uploading flag is
up, so the disabled button (`!fileInfo || uploading`) cannot start a
second upload. -/
theorem upload_exclusive :
    (∀ s : HomeState, canPressUpload s.ctx = true →
      HomeStep s ⟨uploadStart s.ctx, true⟩ ∧ (uploadStart s.ctx).uploading = true)
    ∧ (∀ (o : UploadOutcome) (c : ContextState), (uploadFinish o c).uploading = false)
    ∧ (∀ s : HomeState, Reachable s → s.outstanding = true →
        s.ctx.uploading = true ∧ canPressUpload s.ctx = false) := by
  refine ⟨?_, ?_, ?_⟩
  · intro s h
    exact ⟨HomeStep.press s h, rfl⟩
  · intro o c
    cases o <;> rfl
  · intro s hreach hout
    have hup : s.ctx.uploading = true := reachable_outstanding_uploading s hreach hout
    refine ⟨hup, ?_⟩
    simp [canPressUpload, hup]

/-- Witness for C7: after picking a file and pressing the button, the
reachable in-flight state has the flag up and the button disabled. -/
theorem upload_exclusive_witness :
    homeState2.ctx.uploading = true ∧ canPressUpload homeState2.ctx = false := by
  have step1 : HomeStep initialHome homeState1 := HomeStep.pickFile initialHome fileDemo
  have step2 : HomeStep homeState1 homeState2 := HomeStep.press homeState1 (by decide)
  have hreach : Reachable homeState2 :=
    Relation.ReflTransGen.tail (Relation.ReflTransGen.tail Relation.ReflTransGen.refl step1)
      step2
  exact upload_exclusive.2.2 homeState2 hreach rfl

/-- C8: the revision indices are strictly increasing, so the revision
questions form a subsequence of the original quiz in original order. -/
theorem revisionIndices_increasing_sublist (allQuiz : List Question)
    (stats : Nat → Option QStats) :
    List.Pairwise (· < ·) (revisionIndices allQuiz stats)
    ∧ List.Sublist (revisionQuiz allQuiz stats) allQuiz :=
  ⟨pairwise_revisionIndices allQuiz stats, revisionQuiz_sublist allQuiz stats⟩

/-- C9: the default pattern's counts are digit-only, editing a count
keeps every count digit-only, and on digit-only rows the displayed total
equals the sum over rows of marks times the count read as a decimal
numeral (empty counts contributing 0) — a `Nat` by construction. -/
theorem mockTest_totalMarks_spec :
    countsDigitOnly DEFAULT_PATTERN
    ∧ (∀ (rows : List PatternRow) (index : Nat) (value : String),
        countsDigitOnly rows → countsDigitOnly (handleChangeCount rows index value))
    ∧ (∀ rows : List PatternRow, countsDigitOnly rows →
        totalMarks rows = (rows.map (fun r => r.marks * parsedCount r.count)).sum) := by
  refine ⟨by unfold countsDigitOnly; decide, handleChangeCount_digitOnly, totalMarks_eq_sum⟩

/-- Witness for C9: the default pattern evaluates to total 100 and
matches the specification sum. -/
theorem mockTest_totalMarks_spec_witness :
    totalMarks DEFAULT_PATTERN
        = (DEFAULT_PATTERN.map (fun r => r.marks * parsedCount r.count)).sum
    ∧ totalMarks DEFAULT_PATTERN = 100 :=
  ⟨mockTest_totalMarks_spec.2.2 DEFAULT_PATTERN (by unfold countsDigitOnly; decide), by decide⟩

/-- C10: the dashboard bar clamps its ratio into [0,1] (NaN to 0), so
the rendered width lies between 0% and 100%. -/
theorem bar_width_clamped (ratio : Option ℚ) : 0 ≤ Bar ratio ∧ Bar ratio ≤ 100 := by
  cases ratio with
  | none =>
      constructor <;> norm_num [Bar]
  | some r =>
      have hval : Bar (some r) = max 0 (min 1 r) * 100 := rfl
      rw [hval]
      constructor
      · exact mul_nonneg (le_max_left 0 _) (by norm_num)
      · have h1 : max 0 (min 1 r) ≤ 1 := max_le (by norm_num) (min_le_left 1 r)
        nlinarith

end StudyAI
